import Mathlib

/-!
Shallow embedding of the AI-meditation job service, translated from the
repository sources:

* `src/med_crew/tools/meditation_tools.py` — `ActionParameterGeneratorTool._run`
  (the Parameter Cache & Generator) together with its class-level memo cache;
* `src/med_crew/main.py` — `generate_custom_meditation`'s post-processing loop
  (the Artifact Post-Processor);
* `src/med_crew/api.py` — `run_generation_job`, `DummyFile.write`,
  `sse_event_generator` and `check_status`;
* `src/my_crew/models.py` — the pydantic models (`MeditationSession`,
  `Segment`, `Action`, the parameter payload classes) and their validators.

Machine integers do not overflow in these code paths (plain Python ints), so
times and durations are embedded as `Int`.  Fallible constructions return
`Except String` mirroring pydantic `ValueError`/`ValidationError` and Python
exceptions.
-/

/-! ## Parameter payloads (`my_crew/models.py`, classes `SpeakParameters` …
`MusicParameters`; the same class names are imported by
`med_crew/tools/meditation_tools.py`).

Every field of the Python classes appears here; `Optional[...]` fields become
`Option`.  `MusicParameters.volume` is a Python float used only as a stored
literal (`0.3`), embedded as a rational. -/

inductive Params where
  | speak (text : String)
  | pause (reason : Option String)
  | breathCue (phase : String) (sound : Option String) (text : Option String)
  | cycle (inhale_seconds hold_seconds exhale_seconds rest_seconds repetitions : Int)
      (inhale_cue exhale_cue : Option String)
  | silenceP (type_ : String)
  | music (track_id : Option String) (volume : Option ℚ) (fade_duration : Option Int)
  deriving DecidableEq, Repr

def Params.isSpeak : Params → Bool
  | .speak _ => true
  | _ => false

def Params.isPause : Params → Bool
  | .pause _ => true
  | _ => false

def Params.isBreathCue : Params → Bool
  | .breathCue _ _ _ => true
  | _ => false

def Params.isCycle : Params → Bool
  | .cycle _ _ _ _ _ _ _ => true
  | _ => false

def Params.isSilence : Params → Bool
  | .silenceP _ => true
  | _ => false

def Params.isMusic : Params → Bool
  | .music _ _ _ => true
  | _ => false

/-! ## The action-kind enumeration (`ActionType` in
`med_crew/tools/meditation_tools.py` and `my_crew/models.py`; a `str` enum
whose member values are the strings below). -/

inductive AKind where
  | speak | pause
  | inhale_cue | exhale_cue | breathing_cycle
  | silence | transition_cue | segment_timer
  | play | fade_in | fade_out | volume_change
  deriving DecidableEq, Repr, Fintype

def akStr : AKind → String
  | .speak => "speak"
  | .pause => "pause"
  | .inhale_cue => "inhale_cue"
  | .exhale_cue => "exhale_cue"
  | .breathing_cycle => "breathing_cycle"
  | .silence => "silence"
  | .transition_cue => "transition_cue"
  | .segment_timer => "segment_timer"
  | .play => "play"
  | .fade_in => "fade_in"
  | .fade_out => "fade_out"
  | .volume_change => "volume_change"

/-! ## The memo cache.

The Python cache is a `dict` keyed by the flat f-string
`f"{action_type}_{segment_type}"`; the key is embedded as the underlying
character list of that concatenation, and the dict as an association list
updated by prepending (the most recent binding shadows older ones, matching
`dict` overwrite). -/

def mkKey (action_type segment_type : String) : List Char :=
  action_type.data ++ '_' :: segment_type.data

abbrev Cache := List (List Char × Params)

def findKey : Cache → List Char → Option Params
  | [], _ => none
  | (k, v) :: rest, key => if k = key then some v else findKey rest key

/-! ## Contextual content (`content_info: Optional[Dict[str, Any]]`).

The code reads `content_info.get(segment_type, {})` and then the keys
`"voice_texts"` / `"breath_cues"` from the result, with `.get` defaults; the
shapes actually consumed are a list of strings and a dict with `"inhale"` /
`"exhale"` keys.  Absent dict keys are `none`. -/

structure BreathCues where
  inhale : Option String
  exhale : Option String
  deriving DecidableEq, Repr

structure SegContent where
  voice_texts : Option (List String)
  breath_cues : Option BreathCues
  deriving DecidableEq, Repr

abbrev ContentInfo := List (String × SegContent)

def lookupStr {α : Type} : List (String × α) → String → Option α
  | [], _ => none
  | (k, v) :: rest, key => if k = key then some v else lookupStr rest key

/-- Python truthiness of `content_info` in `if ... and not content_info` /
`... if content_info else {}`: `None` and the empty dict are falsy. -/
def contentFalsy : Option ContentInfo → Bool
  | none => true
  | some ci => ci.isEmpty

/-- `_default_parameters` in `ActionParameterGeneratorTool`: preloaded
defaults for `pause`, `silence` and `transition_cue`. -/
def defaultsHas (action_type : String) : Bool :=
  action_type = "pause" || action_type = "silence" || action_type = "transition_cue"

def defaultFor (action_type : String) : Params :=
  if action_type = "pause" then .pause (some "Allow for reflection")
  else if action_type = "silence" then .silenceP "reflection"
  else .speak "Transitioning"

/-- The `default_content` table built inside `_run` (keys `"opening"`,
`"breathwork"`, `"guidance"`, `"closing"`; `"closing"` has no
`"breath_cues"` entry). -/
def defaultContentTable : List (String × SegContent) :=
  [ ("opening",
      { voice_texts := some
          [ "Welcome to this inner peace meditation.",
            "Find a comfortable position and allow yourself to settle.",
            "Take a deep breath in, and slowly exhale.",
            "Let\x27s begin our practice together." ],
        breath_cues := some { inhale := some "Breathe in deeply",
                              exhale := some "Release and let go" } }),
    ("breathwork",
      { voice_texts := some
          [ "Bring your attention to your breath.",
            "Notice the natural rhythm of your breathing.",
            "Allow your breath to deepen naturally.",
            "With each breath, release any tension you may be holding." ],
        breath_cues := some { inhale := some "Inhale deeply through your nose",
                              exhale := some "Exhale completely through your mouth" } }),
    ("guidance",
      { voice_texts := some
          [ "Allow your awareness to rest gently in the present moment.",
            "Notice any thoughts or feelings without judgment.",
            "Observe your experience with a sense of curiosity and kindness.",
            "Let go of any expectations and simply be here now." ],
        breath_cues := some { inhale := some "Breathe in with awareness",
                              exhale := some "Release and let go completely" } }),
    ("closing",
      { voice_texts := some
          [ "Begin to deepen your breath.",
            "Gently wiggle your fingers and toes.",
            "When you\x27re ready, slowly open your eyes.",
            "Carry this peace with you throughout your day." ],
        breath_cues := none }) ]

/-- Python list subscription `l[0]`, which raises `IndexError` on an empty
list; in `_run` it is guarded by `if voice_texts`. -/
def pyIndex {α : Type} (l : List α) (n : Nat) : Except String α :=
  match l.get? n with
  | some x => .ok x
  | none => .error "IndexError: list index out of range"

def emptySegContent : SegContent := { voice_texts := none, breath_cues := none }

/-- `content_info.get(segment_type, {}) if content_info else {}` in `_run`. -/
def resolveSegContent (content_info : Option ContentInfo) (segment_type : String) :
    SegContent :=
  match content_info with
  | none => emptySegContent
  | some ci => if ci.isEmpty then emptySegContent
               else (lookupStr ci segment_type).getD emptySegContent

/-- `default_content.get(segment_type, default_content["opening"])` in `_run`. -/
def fallbackContent (segment_type : String) : SegContent :=
  (lookupStr defaultContentTable segment_type).getD
    ((lookupStr defaultContentTable "opening").getD emptySegContent)

/-- `segment_content.get("voice_texts", default_content.get(...).get("voice_texts", []))`. -/
def resolveVT (content_info : Option ContentInfo) (segment_type : String) : List String :=
  (resolveSegContent content_info segment_type).voice_texts.getD
    ((fallbackContent segment_type).voice_texts.getD [])

/-- `segment_content.get("breath_cues", default_content.get(...).get("breath_cues", {}))`. -/
def resolveBC (content_info : Option ContentInfo) (segment_type : String) : BreathCues :=
  (resolveSegContent content_info segment_type).breath_cues.getD
    ((fallbackContent segment_type).breath_cues.getD { inhale := none, exhale := none })

/-- The `if/elif` chain of `_run` (meditation_tools.py:156-203) that builds the
typed payload from the action type, the resolved voice texts and the resolved
breath cues, defaulting to `SpeakParameters(text="Placeholder instruction")`
for unrecognized kinds. -/
def runBranch (action_type : String) (voice_texts : List String)
    (breath_cues : BreathCues) : Except String Params :=
  if action_type = "speak" then
    if voice_texts.isEmpty then .ok (.speak "Take a moment to be present.")
    else (pyIndex voice_texts 0).map .speak
  else if action_type = "pause" then
    .ok (.pause (some "Allow for reflection"))
  else if action_type = "inhale_cue" then
    .ok (.breathCue "inhale" none (some (breath_cues.inhale.getD "Breathe in")))
  else if action_type = "exhale_cue" then
    .ok (.breathCue "exhale" none (some (breath_cues.exhale.getD "Breathe out")))
  else if action_type = "breathing_cycle" then
    .ok (.cycle 4 0 6 2 3
      (some (breath_cues.inhale.getD "Breathe in"))
      (some (breath_cues.exhale.getD "Breathe out")))
  else if action_type = "silence" then
    .ok (.silenceP "reflection")
  else if action_type = "transition_cue" then
    .ok (.speak "Transitioning")
  else if action_type = "play" || action_type = "fade_in" ||
          action_type = "fade_out" || action_type = "volume_change" then
    .ok (.music (some "ambient_peace") (some (3 / 10 : ℚ)) none)
  else
    .ok (.speak "Placeholder instruction")

/-- `ActionParameterGeneratorTool._run` (meditation_tools.py:57-209).

Steps, in source order: (1) return a cache hit for
`f"{action_type}_{segment_type}"` immediately; (2) if `action_type` is in the
preloaded `_default_parameters` and `content_info` is falsy, return that
default without caching; (3) resolve `voice_texts` / `breath_cues` from the
supplied `content_info` with the `default_content` table as `.get` fallback
(unknown segment types fall back to the `"opening"` entry); (4) build the
typed payload by the `if/elif` chain on `action_type`; (5) store the result
in the class-level cache and return it. -/
def runTool (tc : Cache) (action_type segment_type : String)
    (content_info : Option ContentInfo) : Except String (Params × Cache) :=
  let cache_key := mkKey action_type segment_type
  match findKey tc cache_key with
  | some p => .ok (p, tc)
  | none =>
    if defaultsHas action_type && contentFalsy content_info then
      .ok (defaultFor action_type, tc)
    else
      (runBranch action_type (resolveVT content_info segment_type)
          (resolveBC content_info segment_type)).map
        (fun result => (result, (cache_key, result) :: tc))

/-- Structural validity of a payload for a given action-kind string, from the
models (`my_crew/models.py` parameter classes) and the generator's design
(§4.3): `speak` and `transition_cue` carry speakable text, the two cue kinds
carry `BreathCueParameters`, `breathing_cycle` carries
`BreathingCycleParameters`, `silence` carries `SilenceParameters`, the four
music kinds carry `MusicParameters`, and `segment_timer` together with every
unrecognized kind resolves to the generic speakable placeholder. -/
def validFor (action_type : String) (p : Params) : Bool :=
  if action_type = "speak" then p.isSpeak
  else if action_type = "pause" then p.isPause
  else if action_type = "inhale_cue" then p.isBreathCue
  else if action_type = "exhale_cue" then p.isBreathCue
  else if action_type = "breathing_cycle" then p.isCycle
  else if action_type = "silence" then p.isSilence
  else if action_type = "transition_cue" then p.isSpeak
  else if action_type = "play" || action_type = "fade_in" ||
          action_type = "fade_out" || action_type = "volume_change" then p.isMusic
  else p.isSpeak

/-! ## Helper lemmas about the generator -/

theorem findKey_cons_self {tc : Cache} {k : List Char} {p : Params} :
    findKey ((k, p) :: tc) k = some p := by
  simp [findKey]

theorem runTool_hit {tc : Cache} {k s : String} {c : Option ContentInfo} {p : Params}
    (h : findKey tc (mkKey k s) = some p) : runTool tc k s c = .ok (p, tc) := by
  simp [runTool, h]

theorem runBranch_ok (k : String) (vt : List String) (bc : BreathCues) :
    ∃ p, runBranch k vt bc = .ok p := by
  unfold runBranch
  by_cases h1 : k = "speak"
  · simp only [h1, if_pos rfl]
    cases vt with
    | nil => exact ⟨_, rfl⟩
    | cons x xs => exact ⟨_, rfl⟩
  · simp only [if_neg h1]
    split_ifs <;> exact ⟨_, rfl⟩

theorem runBranch_valid {k : String} {vt : List String} {bc : BreathCues} {p : Params}
    (h : runBranch k vt bc = .ok p) : validFor k p = true := by
  unfold runBranch at h
  split_ifs at h <;>
    first
    | (cases vt with
       | nil => simp_all
       | cons x xs =>
           simp only [pyIndex, List.get?, Except.map] at h
           cases h
           simp_all [validFor, Params.isSpeak])
    | (cases h; simp_all [validFor, Params.isSpeak, Params.isPause, Params.isBreathCue,
        Params.isCycle, Params.isSilence, Params.isMusic])

theorem runTool_total (tc : Cache) (k s : String) (c : Option ContentInfo) :
    ∃ r, runTool tc k s c = .ok r := by
  cases hf : findKey tc (mkKey k s) with
  | some p => exact ⟨_, runTool_hit hf⟩
  | none =>
    by_cases hd : (defaultsHas k && contentFalsy c) = true
    · exact ⟨(defaultFor k, tc), by simp [runTool, hf, hd]⟩
    · obtain ⟨p, hp⟩ := runBranch_ok k (resolveVT c s) (resolveBC c s)
      exact ⟨(p, (mkKey k s, p) :: tc), by simp [runTool, hf, hd, hp, Except.map]⟩

theorem defaultsHas_cases {k : String} (h : defaultsHas k = true) :
    (k = "pause" ∨ k = "silence") ∨ k = "transition_cue" := by
  simpa [defaultsHas] using h

theorem validFor_defaultFor {k : String} (h : defaultsHas k = true) :
    validFor k (defaultFor k) = true := by
  rcases defaultsHas_cases h with (rfl | rfl) | rfl <;> decide

theorem lookupStr_isEmpty_false {α : Type} {ci : List (String × α)} {s : String} {v : α}
    (h : lookupStr ci s = some v) : ci.isEmpty = false := by
  cases ci with
  | nil => simp [lookupStr] at h
  | cons x xs => rfl

theorem resolveSegContent_of_lookup {ci : ContentInfo} {s : String} {sc : SegContent}
    (h : lookupStr ci s = some sc) : resolveSegContent (some ci) s = sc := by
  simp [resolveSegContent, lookupStr_isEmpty_false h, h]

theorem resolveVT_content {ci : ContentInfo} {s : String} {sc : SegContent} {l : List String}
    (h : lookupStr ci s = some sc) (hv : sc.voice_texts = some l) :
    resolveVT (some ci) s = l := by
  simp [resolveVT, resolveSegContent_of_lookup h, hv]

theorem resolveBC_content {ci : ContentInfo} {s : String} {sc : SegContent} {bc : BreathCues}
    (h : lookupStr ci s = some sc) (hb : sc.breath_cues = some bc) :
    resolveBC (some ci) s = bc := by
  simp [resolveBC, resolveSegContent_of_lookup h, hb]

/-! ## Claim C8 — memoized idempotence of the generator -/

/-- C8: calling `_run` twice with the same `(actionKind, segmentKind)` key and
no contextual content returns equal payloads; once a call has produced a
payload for a key, a repeated call with that key (threading the cache state of
the first call) returns the same payload — either the entry memoized in the
class-level cache or the shared preloaded default. -/
theorem C8_memoized_idempotent (tc : Cache) (k s : String) (p₁ p₂ : Params) (tc₁ tc₂ : Cache)
    (h₁ : runTool tc k s none = .ok (p₁, tc₁))
    (h₂ : runTool tc₁ k s none = .ok (p₂, tc₂)) : p₂ = p₁ := by
  cases hf : findKey tc (mkKey k s) with
  | some q =>
    rw [runTool_hit hf] at h₁
    obtain ⟨h1a, h1b⟩ : q = p₁ ∧ tc = tc₁ := by simpa using h₁
    subst h1a; subst h1b
    rw [runTool_hit hf] at h₂
    obtain ⟨h2a, -⟩ : q = p₂ ∧ tc = tc₂ := by simpa using h₂
    exact h2a.symm
  | none =>
    by_cases hd : (defaultsHas k && contentFalsy none) = true
    · simp only [runTool, hf, if_pos hd] at h₁
      obtain ⟨h1a, h1b⟩ : defaultFor k = p₁ ∧ tc = tc₁ := by simpa using h₁
      subst h1a; subst h1b
      simp only [runTool, hf, if_pos hd] at h₂
      obtain ⟨h2a, -⟩ : defaultFor k = p₂ ∧ tc = tc₂ := by simpa using h₂
      exact h2a.symm
    · obtain ⟨q, hq⟩ := runBranch_ok k (resolveVT none s) (resolveBC none s)
      simp only [runTool, hf, if_neg hd, hq, Except.map] at h₁
      obtain ⟨h1a, h1b⟩ : q = p₁ ∧ (mkKey k s, q) :: tc = tc₁ := by simpa using h₁
      subst h1a; subst h1b
      rw [runTool_hit (findKey_cons_self)] at h₂
      obtain ⟨h2a, -⟩ : q = p₂ ∧ (mkKey k s, q) :: tc = tc₂ := by simpa using h₂
      exact h2a.symm

/-- Witness for C8 at a concrete input: two consecutive `speak`/`opening`
calls on a fresh cache return the same payload. -/
theorem C8_witness :
    Params.speak "Welcome to this inner peace meditation." =
      Params.speak "Welcome to this inner peace meditation." :=
  C8_memoized_idempotent [] "speak" "opening"
    (.speak "Welcome to this inner peace meditation.")
    (.speak "Welcome to this inner peace meditation.")
    [(mkKey "speak" "opening", .speak "Welcome to this inner peace meditation.")]
    [(mkKey "speak" "opening", .speak "Welcome to this inner peace meditation.")]
    rfl rfl

/-! ## Claim C5 — totality of the generator, and validity of its payloads -/

/-- Counterexample to C5 as stated: the memo cache is keyed by the flat string
`f"{action_type}_{segment_type}"`, so distinct pairs can collide.  After a
call with the unrecognized kind `"breathing"` and segment `"cycle_opening"`
caches the generic speak placeholder under the key
`"breathing_cycle_opening"`, a call with the recognized kind
`"breathing_cycle"` and segment `"opening"` hits that cache entry and returns
the speak placeholder instead of `BreathingCycleParameters` — a payload that
is not structurally appropriate for `breathing_cycle`. -/
theorem C5_key_collision_cex :
    runTool [] "breathing" "cycle_opening" none =
      .ok (.speak "Placeholder instruction",
           [(mkKey "breathing" "cycle_opening", .speak "Placeholder instruction")]) ∧
    runTool [(mkKey "breathing" "cycle_opening", .speak "Placeholder instruction")]
        "breathing_cycle" "opening" none =
      .ok (.speak "Placeholder instruction",
           [(mkKey "breathing" "cycle_opening", .speak "Placeholder instruction")]) ∧
    (Params.speak "Placeholder instruction").isCycle = false ∧
    validFor "breathing_cycle" (.speak "Placeholder instruction") = false :=
  ⟨rfl, rfl, rfl, rfl⟩

/-- C5 amended: `_run` never raises for any `(actionKind, segmentKind)` pair
of strings and any cache and content state; and whenever the flat cache key
is not already occupied (in particular on a fresh cache, or when no earlier
call cached a payload under a colliding key), the returned payload is
structurally valid for the action kind, with a generic speakable placeholder
for unrecognized kinds. -/
theorem C5_generator_total_and_valid_on_miss (tc : Cache) (k s : String)
    (c : Option ContentInfo) :
    (∃ r, runTool tc k s c = .ok r) ∧
    (findKey tc (mkKey k s) = none →
      ∀ p tc', runTool tc k s c = .ok (p, tc') → validFor k p = true) := by
  refine ⟨runTool_total tc k s c, fun hf p tc' h => ?_⟩
  by_cases hd : (defaultsHas k && contentFalsy c) = true
  · simp only [runTool, hf, if_pos hd] at h
    obtain ⟨h1a, -⟩ : defaultFor k = p ∧ tc = tc' := by simpa using h
    subst h1a
    exact validFor_defaultFor (Bool.and_elim_left hd)
  · obtain ⟨q, hq⟩ := runBranch_ok k (resolveVT c s) (resolveBC c s)
    simp only [runTool, hf, if_neg hd, hq, Except.map] at h
    obtain ⟨h1a, -⟩ : q = p ∧ (mkKey k s, q) :: tc = tc' := by simpa using h
    subst h1a
    exact runBranch_valid hq

/-- Witness for C5 at a concrete input: on a fresh cache, the
`breathing_cycle`/`opening` call returns a structurally valid cycle payload. -/
theorem C5_witness :
    validFor "breathing_cycle"
      (Params.cycle 4 0 6 2 3 (some "Breathe in deeply") (some "Release and let go")) = true :=
  (C5_generator_total_and_valid_on_miss [] "breathing_cycle" "opening" none).2 rfl _
    [(mkKey "breathing_cycle" "opening",
      Params.cycle 4 0 6 2 3 (some "Breathe in deeply") (some "Release and let go"))] rfl

/-! ## Claim C4 — supplied content vs the memo cache -/

/-- Counterexample to C4 as stated: `_run` consults the memo cache before
looking at `content_info`.  A first `speak`/`opening` call without content
caches the fallback phrase; a second call with the same key and a non-empty
`content_info` (supplying `"Custom line"` for segment `"opening"`) returns
the cached fallback phrase, not a payload built from the supplied content. -/
theorem C4_cache_hit_ignores_content_cex :
    runTool [] "speak" "opening" none =
      .ok (.speak "Welcome to this inner peace meditation.",
           [(mkKey "speak" "opening", .speak "Welcome to this inner peace meditation.")]) ∧
    runTool [(mkKey "speak" "opening", .speak "Welcome to this inner peace meditation.")]
        "speak" "opening"
        (some [("opening", { voice_texts := some ["Custom line"], breath_cues := none })]) =
      .ok (.speak "Welcome to this inner peace meditation.",
           [(mkKey "speak" "opening", .speak "Welcome to this inner peace meditation.")]) ∧
    Params.speak "Welcome to this inner peace meditation." ≠ Params.speak "Custom line" :=
  ⟨rfl, rfl, by decide⟩

/-- C4 amended: for the content-dependent kinds (`speak`, `inhale_cue`,
`exhale_cue`, `breathing_cycle`), supplied contextual content takes
precedence over the fallback table only on a cache miss: when the flat key is
not yet cached and `content_info` holds an entry for the segment kind with
the relevant field present, the returned parameters are built from that
supplied content. -/
theorem C4_content_precedence_on_cache_miss :
    (∀ (tc : Cache) (s : String) (ci : ContentInfo) (sc : SegContent) (t : String)
        (ts : List String) (p : Params) (tc' : Cache),
        findKey tc (mkKey "speak" s) = none →
        lookupStr ci s = some sc →
        sc.voice_texts = some (t :: ts) →
        runTool tc "speak" s (some ci) = .ok (p, tc') →
        p = .speak t) ∧
    (∀ (tc : Cache) (s : String) (ci : ContentInfo) (sc : SegContent) (bc : BreathCues)
        (ti : String) (p : Params) (tc' : Cache),
        findKey tc (mkKey "inhale_cue" s) = none →
        lookupStr ci s = some sc →
        sc.breath_cues = some bc →
        bc.inhale = some ti →
        runTool tc "inhale_cue" s (some ci) = .ok (p, tc') →
        p = .breathCue "inhale" none (some ti)) ∧
    (∀ (tc : Cache) (s : String) (ci : ContentInfo) (sc : SegContent) (bc : BreathCues)
        (te : String) (p : Params) (tc' : Cache),
        findKey tc (mkKey "exhale_cue" s) = none →
        lookupStr ci s = some sc →
        sc.breath_cues = some bc →
        bc.exhale = some te →
        runTool tc "exhale_cue" s (some ci) = .ok (p, tc') →
        p = .breathCue "exhale" none (some te)) ∧
    (∀ (tc : Cache) (s : String) (ci : ContentInfo) (sc : SegContent) (bc : BreathCues)
        (ti te : String) (p : Params) (tc' : Cache),
        findKey tc (mkKey "breathing_cycle" s) = none →
        lookupStr ci s = some sc →
        sc.breath_cues = some bc →
        bc.inhale = some ti →
        bc.exhale = some te →
        runTool tc "breathing_cycle" s (some ci) = .ok (p, tc') →
        p = .cycle 4 0 6 2 3 (some ti) (some te)) := by
  refine ⟨?_, ?_, ?_, ?_⟩
  · intro tc s ci sc t ts p tc' hf hl hv h
    simp [runTool, hf, defaultsHas, resolveVT_content hl hv, runBranch, pyIndex,
      Except.map] at h
    exact h.1.symm
  · intro tc s ci sc bc ti p tc' hf hl hb hbi h
    simp [runTool, hf, defaultsHas, resolveBC_content hl hb, runBranch, hbi,
      Except.map] at h
    exact h.1.symm
  · intro tc s ci sc bc te p tc' hf hl hb hbe h
    simp [runTool, hf, defaultsHas, resolveBC_content hl hb, runBranch, hbe,
      Except.map] at h
    exact h.1.symm
  · intro tc s ci sc bc ti te p tc' hf hl hb hbi hbe h
    simp [runTool, hf, defaultsHas, resolveBC_content hl hb, runBranch, hbi, hbe,
      Except.map] at h
    exact h.1.symm

/-- Witness for C4 at a concrete input: a fresh-cache `speak`/`opening` call
with supplied content returns the supplied phrase. -/
theorem C4_witness :
    (Params.speak "Custom line") = .speak "Custom line" :=
  C4_content_precedence_on_cache_miss.1 [] "opening"
    [("opening", { voice_texts := some ["Custom line"], breath_cues := none })]
    { voice_texts := some ["Custom line"], breath_cues := none } "Custom line" [] _
    [(mkKey "speak" "opening", .speak "Custom line")] rfl rfl rfl rfl

/-! ## Status Stream Server (`sse_event_generator`, api.py:84-121).

Each loop iteration reads the job's `status` and `progress` keys from redis
(and, when emitting a failed event, the `error` key); those three reads form
one `Poll`.  Whether `now - last_heartbeat >= heartbeat_interval` held at that
iteration is recorded as the oracle bit `hbDue`, which over-approximates every
possible timing.  The unbounded `while True` loop is embedded by structural
recursion over the list of polls the loop would observe: the run either
breaks at a terminal status or consumes the whole list. -/

structure Poll where
  status : Option String
  progress : Option String
  error : Option String
  hbDue : Bool

inductive SEvent where
  | change (status : Option String) (progressField : Option String)
      (idField : Option String) (errorField : Option String)
  | heartbeat (status : String)
  deriving DecidableEq, Repr

def truthyStr : Option String → Option String
  | none => none
  | some s => if s = "" then none else some s

def orRunning : Option String → String
  | none => "running"
  | some s => if s = "" then "running" else s

def isTerminalS (o : Option String) : Bool :=
  o == some "completed" || o == some "failed"

def eventTerminal : SEvent → Bool
  | .change s _ _ _ => isTerminalS s
  | .heartbeat s => s == "completed" || s == "failed"

def iterEvents (jid : String) (p : Poll) (lastS lastP : Option String) : List SEvent :=
  let changed : Bool := p.status != lastS || p.progress != lastP
  (if changed then
    [ .change p.status (truthyStr p.progress)
        (if p.status == some "completed" then some jid else none)
        (if p.status == some "failed" then p.error else none) ]
   else []) ++
  (if !changed && p.hbDue then [ .heartbeat (orRunning p.status) ] else [])

def sseRun (jid : String) : List Poll → Option String → Option String → List SEvent
  | [], _, _ => []
  | p :: ps, lastS, lastP =>
    let changed : Bool := p.status != lastS || p.progress != lastP
    let evs := iterEvents jid p lastS lastP
    if isTerminalS p.status then evs
    else evs ++ sseRun jid ps (if changed then p.status else lastS)
                              (if changed then p.progress else lastP)

theorem orRunning_nonterminal {o : Option String} (h : isTerminalS o = false) :
    ((orRunning o == "completed" || orRunning o == "failed") = false) := by
  cases o with
  | none => rfl
  | some s =>
    simp only [isTerminalS, Bool.or_eq_false_iff, beq_eq_false_iff_ne, ne_eq,
      Option.some.injEq] at h
    simp only [orRunning]
    split_ifs with hs
    · rfl
    · simp [h.1, h.2]

theorem iterEvents_nonterminal {jid : String} {p : Poll} {lastS lastP : Option String}
    (hp : isTerminalS p.status = false) :
    ∀ e ∈ iterEvents jid p lastS lastP, eventTerminal e = false := by
  intro e he
  unfold iterEvents at he
  rcases List.mem_append.mp he with h1 | h2
  · clear he
    split_ifs at h1 <;> simp_all [eventTerminal]
  · clear he
    split_ifs at h2 with hc
    · rcases List.mem_singleton.mp h2 with rfl
      simpa [eventTerminal] using orRunning_nonterminal hp
    · simp at h2

theorem sse_terminal_head {jid : String} {p : Poll} {ps : List Poll}
    {lastS lastP : Option String}
    (hp : isTerminalS p.status = true) :
    sseRun jid (p :: ps) lastS lastP = iterEvents jid p lastS lastP := by
  simp [sseRun, hp]

theorem sse_nonterminal_head {jid : String} {p : Poll} {ps : List Poll}
    {lastS lastP : Option String}
    (hp : isTerminalS p.status = false) :
    sseRun jid (p :: ps) lastS lastP =
      iterEvents jid p lastS lastP ++
        sseRun jid ps (if (p.status != lastS || p.progress != lastP) then p.status else lastS)
          (if (p.status != lastS || p.progress != lastP) then p.progress else lastP) := by
  simp [sseRun, hp]

theorem iterEvents_len (jid : String) (p : Poll) (lastS lastP : Option String) :
    (iterEvents jid p lastS lastP).length ≤ 1 := by
  by_cases hc : (p.status != lastS || p.progress != lastP) = true
  · simp [iterEvents, hc]
  · simp only [iterEvents, hc]
    split_ifs <;> simp_all

theorem dropLast_len_le_one {α : Type} {l : List α} (h : l.length ≤ 1) :
    l.dropLast = [] := by
  cases l with
  | nil => rfl
  | cons x xs => cases xs with
    | nil => rfl
    | cons y ys => simp at h

theorem dropLast_append_ne_nil {α : Type} (xs : List α) {ys : List α} (h : ys ≠ []) :
    (xs ++ ys).dropLast = xs ++ ys.dropLast := by
  induction xs with
  | nil => rfl
  | cons x xs ih =>
    have hne : xs ++ ys ≠ [] := by
      cases xs <;> simp [h]
    rw [List.cons_append, List.dropLast_cons_of_ne_nil hne, ih, List.cons_append]

theorem sse_count_le (jid : String) (polls : List Poll) :
    ∀ lastS lastP, isTerminalS lastS = false →
    (sseRun jid polls lastS lastP).countP (fun e => eventTerminal e) ≤ 1 := by
  induction polls with
  | nil => intro lastS lastP hl; simp [sseRun]
  | cons p ps ih =>
    intro lastS lastP hl
    cases ht : isTerminalS p.status with
    | true =>
      rw [sse_terminal_head ht]
      exact le_trans (List.countP_le_length _) (iterEvents_len jid p lastS lastP)
    | false =>
      rw [sse_nonterminal_head ht, List.countP_append]
      have h0 : (iterEvents jid p lastS lastP).countP (fun e => eventTerminal e) = 0 :=
        List.countP_eq_zero.mpr (fun e he => by simp [iterEvents_nonterminal ht e he])
      rw [h0, Nat.zero_add]
      apply ih
      split_ifs
      · exact ht
      · exact hl

theorem sse_dropLast_nonterminal (jid : String) (polls : List Poll) :
    ∀ lastS lastP, isTerminalS lastS = false →
    ∀ e ∈ (sseRun jid polls lastS lastP).dropLast, eventTerminal e = false := by
  induction polls with
  | nil => intro lastS lastP hl e he; simp [sseRun] at he
  | cons p ps ih =>
    intro lastS lastP hl e he
    cases ht : isTerminalS p.status with
    | true =>
      rw [sse_terminal_head ht, dropLast_len_le_one (iterEvents_len jid p lastS lastP)] at he
      simp at he
    | false =>
      rw [sse_nonterminal_head ht] at he
      have hS' : isTerminalS
          (if (p.status != lastS || p.progress != lastP) then p.status else lastS) = false := by
        split_ifs
        · exact ht
        · exact hl
      cases hr : sseRun jid ps
          (if (p.status != lastS || p.progress != lastP) then p.status else lastS)
          (if (p.status != lastS || p.progress != lastP) then p.progress else lastP) with
      | nil =>
        rw [hr, List.append_nil] at he
        exact iterEvents_nonterminal ht e ((List.dropLast_sublist _).subset he)
      | cons r rs =>
        rw [hr, dropLast_append_ne_nil _ (by simp)] at he
        rcases List.mem_append.mp he with h1 | h2
        · exact iterEvents_nonterminal ht e h1
        · exact ih _ _ hS' e (by rw [hr]; exact h2)

theorem sse_stop (jid : String) (polls : List Poll) :
    ∀ extra lastS lastP, isTerminalS lastS = false →
    (∃ e ∈ sseRun jid polls lastS lastP, eventTerminal e = true) →
    sseRun jid (polls ++ extra) lastS lastP = sseRun jid polls lastS lastP := by
  induction polls with
  | nil =>
    intro extra lastS lastP hl hex
    obtain ⟨e, he, -⟩ := hex
    simp [sseRun] at he
  | cons p ps ih =>
    intro extra lastS lastP hl hex
    cases ht : isTerminalS p.status with
    | true => rw [List.cons_append, sse_terminal_head ht, sse_terminal_head ht]
    | false =>
      rw [List.cons_append, sse_nonterminal_head ht, sse_nonterminal_head ht]
      congr 1
      apply ih
      · split_ifs
        · exact ht
        · exact hl
      · obtain ⟨e, he, hte⟩ := hex
        rw [sse_nonterminal_head ht] at he
        rcases List.mem_append.mp he with h1 | h2
        · exact absurd hte (by simp [iterEvents_nonterminal ht e h1])
        · exact ⟨e, h2, hte⟩

/-- C6: over any sequence of polled store states, a subscriber session emits
at most one event carrying a terminal status (`completed` or `failed`), every
event other than the final one is non-terminal (so nothing follows a terminal
event), and once a terminal event has been emitted the loop has stopped
polling: extending the poll sequence does not change the emitted events. -/
theorem C6_terminal_event_closes (jid : String) (polls : List Poll) :
    ((sseRun jid polls none none).countP (fun e => eventTerminal e) ≤ 1) ∧
    (∀ e ∈ (sseRun jid polls none none).dropLast, eventTerminal e = false) ∧
    (∀ extra, (∃ e ∈ sseRun jid polls none none, eventTerminal e = true) →
      sseRun jid (polls ++ extra) none none = sseRun jid polls none none) :=
  ⟨sse_count_le jid polls none none rfl,
   sse_dropLast_nonterminal jid polls none none rfl,
   fun extra hex => sse_stop jid polls extra none none rfl hex⟩

/-- Witness for C6 at a concrete input: a session that observes a completed
status emits one terminal event and ignores any later store states. -/
theorem C6_witness :
    sseRun "j" ([⟨some "completed", none, none, false⟩] ++ [⟨some "running", none, none, true⟩])
        none none =
      sseRun "j" [⟨some "completed", none, none, false⟩] none none :=
  (C6_terminal_event_closes "j" [⟨some "completed", none, none, false⟩]).2.2 [⟨some "running", none, none, true⟩]
    ⟨SEvent.change (some "completed") none (some "j") none, by decide, rfl⟩

/-- C10: for a job id with no status entry (every poll reads `None` for both
status and progress), the loop never breaks — it consumes every poll — no
change or terminal event is ever emitted, and each heartbeat due carries the
fabricated status `"running"` (`status or 'running'` with `status = None`). -/
theorem C10_unknown_job_stream (jid : String) (polls : List Poll)
    (h : ∀ p ∈ polls, p.status = none ∧ p.progress = none) :
    sseRun jid polls none none =
      polls.filterMap (fun p => if p.hbDue then some (.heartbeat "running") else none) := by
  induction polls with
  | nil => rfl
  | cons p ps ih =>
    obtain ⟨h1, h2⟩ := h p (List.mem_cons_self p ps)
    have hrest : ∀ q ∈ ps, q.status = none ∧ q.progress = none :=
      fun q hq => h q (List.mem_cons_of_mem p hq)
    rw [sse_nonterminal_head (by rw [h1]; rfl)]
    cases hb : p.hbDue <;>
      simp [iterEvents, h1, h2, hb, orRunning, List.filterMap_cons, ih hrest]

/-- Witness for C10 at a concrete input: two polls of an absent job yield
exactly one `running` heartbeat and no termination. -/
theorem C10_witness :
    sseRun "j" [⟨none, none, none, true⟩, ⟨none, none, none, false⟩] none none =
      [SEvent.heartbeat "running"] :=
  C10_unknown_job_stream "j" [⟨none, none, none, true⟩, ⟨none, none, none, false⟩] (by decide)

/-! ## Progress Capture Adapter (`DummyFile.write`, api.py:47-58).

`write(x)` strips `x`, drops empty lines, matches the stripped line against
the Python regex `\[Agent:(.*?)\] (.*)` with `re.match` (anchored at the
start; `.` does not cross a newline; the lazy group stops at the first
`"] "` whose agent part contains no newline), and on a match overwrites the
job's progress key with `{agent, message}`.  Text is embedded as `List Char`;
`pyStrip` is `str.strip()` over the six ASCII whitespace characters Python
strips here. -/

def isPyWS (c : Char) : Bool :=
  c = ' ' || c = '\t' || c = '\n' || c = '\r' || c = '\x0b' || c = '\x0c'

def pyStrip (l : List Char) : List Char :=
  ((l.dropWhile isPyWS).reverse.dropWhile isPyWS).reverse

def scanAgent : List Char → List Char → Option (List Char × List Char)
  | [], _ => none
  | c :: rest, acc =>
    if c = ']' ∧ rest.head? = some ' ' then
      some (acc.reverse, (rest.drop 1).takeWhile (fun x => x != '\n'))
    else if c = '\n' then none
    else scanAgent rest (c :: acc)

def agentTag : List Char := "[Agent:".data

def tryMatchAgent (line : List Char) : Option (List Char × List Char) :=
  if agentTag.isPrefixOf line then scanAgent (line.drop agentTag.length) [] else none

inductive ProgressV where
  | stage (stage details : String)
  | agentSnap (agent message : List Char)
  | completedSnap (stage details session : String)
  deriving DecidableEq, Repr

def writeChunk (st : Option ProgressV) (x : List Char) : Option ProgressV :=
  let line := pyStrip x
  if line.isEmpty then st
  else
    match tryMatchAgent line with
    | some (a, m) => some (.agentSnap a m)
    | none => st

def runLines (st : Option ProgressV) (ls : List (List Char)) : Option ProgressV :=
  ls.foldl writeChunk st

def hasSep : List Char → Bool
  | [] => false
  | c :: rest => (c = ']' && rest.head? = some ' ') || hasSep rest

theorem scanAgent_sep (tail : List Char) : ∀ (name acc : List Char), hasSep name = false →
    name.all (fun c => c != '\n') = true →
    scanAgent (name ++ ']' :: ' ' :: tail) acc =
      some (acc.reverse ++ name, tail.takeWhile (fun c => c != '\n')) := by
  intro name
  induction name with
  | nil => intro acc h1 h2; simp [scanAgent]
  | cons c cs ih =>
    intro acc h1 h2
    simp only [hasSep, Bool.or_eq_false_iff, Bool.and_eq_false_iff] at h1
    simp only [List.all_cons, Bool.and_eq_true, bne_iff_ne, ne_eq] at h2
    rw [List.cons_append]
    rw [scanAgent]
    have hcond : ¬(c = ']' ∧ (cs ++ ']' :: ' ' :: tail).head? = some ' ') := by
      cases cs with
      | nil =>
        rintro ⟨rfl, hh⟩
        simp at hh
      | cons d ds =>
        rintro ⟨rfl, hh⟩
        simp at hh
        rcases h1.1 with hbad | hbad
        · simp at hbad
        · rw [hh] at hbad
          simp at hbad
    rw [if_neg hcond, if_neg h2.1]
    rw [ih (c :: acc) h1.2 (by simpa using h2.2)]
    simp

theorem tryMatchAgent_nil : tryMatchAgent [] = none := rfl

theorem tryMatch_decompose (name tail : List Char) (h1 : hasSep name = false)
    (h2 : name.all (fun c => c != '\n') = true) :
    tryMatchAgent (agentTag ++ name ++ ']' :: ' ' :: tail) =
      some (name, tail.takeWhile (fun c => c != '\n')) := by
  unfold tryMatchAgent
  have hp : agentTag.isPrefixOf (agentTag ++ (name ++ ']' :: ' ' :: tail)) = true := by
    rw [List.isPrefixOf_iff_prefix]
    exact List.prefix_append _ _
  rw [List.append_assoc, if_pos hp, List.drop_left]
  rw [scanAgent_sep tail name [] h1 h2]
  rfl

/-- C9: a chunk whose stripped line matches `[Agent:<name>] <message>`
overwrites the progress snapshot with exactly that agent and message
(last-write-wins); a chunk that does not match (empty or not) leaves the
state unchanged; processing a sequence of chunks is the fold of the single
step, so no chunk can abort capture of the ones after it; and the matcher
accepts precisely the claimed decomposition (for a name free of newlines and
of an embedded `"] "` separator, the match returns that name and the message
up to the first newline).  Every Python operation in `write` (strip,
`re.match`, group extraction, `r.set`) is total, which the embedding reflects
by returning a state rather than an exception. -/
theorem C9_progress_capture :
    (∀ (st : Option ProgressV) (x a m : List Char),
        tryMatchAgent (pyStrip x) = some (a, m) →
        writeChunk st x = some (.agentSnap a m)) ∧
    (∀ (st : Option ProgressV) (x : List Char),
        tryMatchAgent (pyStrip x) = none → writeChunk st x = st) ∧
    (∀ (st : Option ProgressV) (ls : List (List Char)) (x : List Char),
        runLines st (ls ++ [x]) = writeChunk (runLines st ls) x) ∧
    (∀ (name msg : List Char), hasSep name = false →
        name.all (fun c => c != '\n') = true →
        tryMatchAgent (agentTag ++ name ++ ']' :: ' ' :: msg) =
          some (name, msg.takeWhile (fun c => c != '\n'))) := by
  refine ⟨?_, ?_, ?_, tryMatch_decompose⟩
  · intro st x a m h
    unfold writeChunk
    have hne : (pyStrip x).isEmpty = false := by
      cases hl : pyStrip x with
      | nil => rw [hl] at h; simp [tryMatchAgent_nil] at h
      | cons c cs => rfl
    simp [hne, h]
  · intro st x h
    unfold writeChunk
    cases hl : (pyStrip x).isEmpty with
    | true => simp [hl]
    | false => simp [hl, h]
  · intro st ls x
    simp [runLines, List.foldl_append]

/-- Witness for C9 at concrete inputs: a tagged chunk overwrites the
snapshot, a plain chunk leaves it unchanged, and a trailing chunk is
processed regardless of the chunks before it. -/
theorem C9_witness :
    writeChunk none ("[Agent:Writer] drafting script".data) =
      some (.agentSnap ("Writer".data) ("drafting script".data)) ∧
    writeChunk (some (.agentSnap ("Writer".data) ("drafting script".data)))
        ("no tag here".data) =
      some (.agentSnap ("Writer".data) ("drafting script".data)) ∧
    runLines none ([("noise".data)] ++ [("[Agent:W] go".data)]) =
      writeChunk (runLines none [("noise".data)]) ("[Agent:W] go".data) :=
  ⟨C9_progress_capture.1 none _ _ _ rfl, C9_progress_capture.2.1 _ _ rfl, C9_progress_capture.2.2.1 none _ _⟩

/-! ## Job Lifecycle Manager (`api.py`).

The redis keys `job:{id}:status`, `job:{id}:progress`, `job:{id}:error`,
`job:{id}:result_path` for one job id are embedded as one record; a missing
key is `none`.  `redis.get` on a missing key returns `None`. -/

structure RedisJob where
  status : Option String
  progress : Option ProgressV
  error : Option String
  result_path : Option String
  deriving DecidableEq, Repr

/-- `generate_meditation` (api.py:124-129): a fresh submission writes only
`status = "queued"`; no other key for the new job id exists. -/
def submitJob : RedisJob :=
  { status := some "queued", progress := none, error := none, result_path := none }

/-- The success path of `run_generation_job` (api.py:42-78): set
status=running and a starting progress snapshot; run the producer under
`DummyFile` (its stdout/stderr chunks update only the progress key, via
`writeChunk`); insert the result document into Mongo (the inserted id is the
external collaborator's return value); set status=completed and the final
progress snapshot carrying that id.  No write to `job:{id}:result_path`
occurs anywhere in the function. -/
def runGenerationJobSuccess (j : RedisJob) (chunks : List (List Char))
    (inserted_id : String) : RedisJob :=
  let j1 := { j with status := some "running",
                     progress := some (.stage "starting" "Initializing agents") }
  let j2 := { j1 with progress := runLines j1.progress chunks }
  { j2 with status := some "completed",
            progress := some (.completedSnap "completed" "Session generated" inserted_id) }

structure MedStatus where
  job_id : String
  status : String
  result_path : Option String
  error : Option String
  deriving DecidableEq, Repr

/-- `check_status` (api.py:131-138): 404 when the status key is missing (or
empty — `if not status`); otherwise return the status together with the
`result_path` and `error` keys. -/
def checkStatus (j : RedisJob) (job_id : String) : Except Nat MedStatus :=
  match j.status with
  | none => .error 404
  | some s =>
    if s = "" then .error 404
    else .ok { job_id := job_id, status := s, result_path := j.result_path, error := j.error }

/-- C2 evaluated on the success path: for every producer output and inserted
id, a job that was submitted and then completed successfully has
status=completed but `result_path = none`, and `check_status` returns
`.ok` with a null `result_path` — the code never writes
`job:{id}:result_path`, so the claimed non-null resultRef is impossible. -/
theorem C2_result_path_never_written (chunks : List (List Char)) (oid jid : String) :
    (runGenerationJobSuccess submitJob chunks oid).status = some "completed" ∧
    (runGenerationJobSuccess submitJob chunks oid).result_path = none ∧
    (∀ j : RedisJob, (runGenerationJobSuccess j chunks oid).result_path = j.result_path) ∧
    checkStatus (runGenerationJobSuccess submitJob chunks oid) jid =
      .ok { job_id := jid, status := "completed", result_path := none, error := none } :=
  ⟨rfl, rfl, fun _ => rfl, rfl⟩

/-! ## The pydantic models of `my_crew/models.py`.

`Action.parameters` is `Dict[str, Any]`; the validators never inspect the
payload values, so entries are embedded as string pairs. -/

def agentTypeValues : List String :=
  ["VoiceAgent", "BreathAgent", "TimerAgent", "MusicAgent"]

def actionTypeValues : List String :=
  ["speak", "pause", "inhale_cue", "exhale_cue", "breathing_cycle", "silence",
   "transition_cue", "segment_timer", "play", "fade_in", "fade_out", "volume_change"]

def segmentTypeValues : List String :=
  ["opening", "breathwork", "body_awareness", "visualization", "silence",
   "affirmation", "closing", "custom", "grounding", "deepening"]

structure MAction where
  agent : String
  atype : String
  start_time_seconds : Int
  duration_seconds : Int
  parameters : List (String × String)
  deriving DecidableEq, Repr

structure MSegment where
  title : String
  stype : String
  start_time_seconds : Int
  end_time_seconds : Int
  actions : List MAction
  deriving DecidableEq, Repr

structure MeditationSession where
  title : String
  duration_seconds : Int
  theme : String
  difficulty : String
  background_music : Option String
  segments : List MSegment
  deriving DecidableEq, Repr

/-- Field constraints of `Action` (models.py:197-203): enum membership for
`agent` and `type`, `start_time_seconds ≥ 0`, `duration_seconds ≥ 0`. -/
def actionOK (a : MAction) : Bool :=
  (a.agent ∈ agentTypeValues) && (a.atype ∈ actionTypeValues) &&
    (0 ≤ a.start_time_seconds) && (0 ≤ a.duration_seconds)

/-- Field constraints of `Segment` (models.py:205-211): enum membership for
`type`, `start_time_seconds ≥ 0`, `end_time_seconds ≥ 1`, valid actions. -/
def segmentOK (s : MSegment) : Bool :=
  (s.stype ∈ segmentTypeValues) && (0 ≤ s.start_time_seconds) &&
    (1 ≤ s.end_time_seconds) && s.actions.all actionOK

/-- `max(segment.end_time_seconds for segment in segments)` over a non-empty
list. -/
def maxEndTime : List MSegment → Int
  | [] => 0
  | s :: rest => rest.foldl (fun m x => max m x.end_time_seconds) s.end_time_seconds

/-- The body of the `@validator('duration_seconds')`
`check_duration_matches_segments` (models.py:222-230): given the candidate
value `v` and the `segments` entry of the `values` dict of
previously-validated fields, raise when the segments are present, non-empty
and their maximum end time differs from `v`. -/
def check_duration_matches_segments (v : Int) (valuesSegments : Option (List MSegment)) :
    Except String Int :=
  match valuesSegments with
  | some segs =>
    if segs.isEmpty then .ok v
    else if v ≠ maxEndTime segs then
      .error "Duration does not match end of last segment"
    else .ok v
  | none => .ok v

/-- `MeditationSession(...)` construction (models.py:213-230) under pydantic
validation semantics: fields are validated in declaration order (`title`,
`duration_seconds`, `theme`, `difficulty`, `background_music`, `segments`)
and a field validator receives in `values` only the fields already
validated.  `duration_seconds` is declared before `segments`, so its
validator is invoked with no `segments` entry in `values`. -/
def mkMeditationSession (title : String) (duration_seconds : Int)
    (theme difficulty : String) (background_music : Option String)
    (segments : List MSegment) : Except String MeditationSession :=
  if duration_seconds < 1 then .error "duration_seconds: must be at least 1"
  else
    (check_duration_matches_segments duration_seconds none).bind fun v =>
      if segments.all segmentOK then
        .ok { title := title, duration_seconds := v, theme := theme,
              difficulty := difficulty, background_music := background_music,
              segments := segments }
      else .error "segments: value error"

/-- C1 evaluated at a failing input: a `MeditationSession` whose declared
duration (100) differs from the maximum segment end time (50) constructs
successfully — pydantic runs the `duration_seconds` validator before
`segments` has been validated, so the `'segments' in values` guard is always
false and the mismatch check is dead code.  The validator body itself, handed
the segments, would reject the same input, which is what the claim (and the
validator's own docstring) describe. -/
theorem C1_duration_validator_dead :
    mkMeditationSession "t" 100 "peace" "beginner" none
        [{ title := "s1", stype := "opening", start_time_seconds := 0,
           end_time_seconds := 50, actions := [] }] =
      .ok { title := "t", duration_seconds := 100, theme := "peace",
            difficulty := "beginner", background_music := none,
            segments := [{ title := "s1", stype := "opening", start_time_seconds := 0,
                           end_time_seconds := 50, actions := [] }] } ∧
    maxEndTime [{ title := "s1", stype := "opening", start_time_seconds := 0,
                  end_time_seconds := 50, actions := [] }] = 50 ∧
    (100 : Int) ≠ 50 ∧
    check_duration_matches_segments 100
        (some [{ title := "s1", stype := "opening", start_time_seconds := 0,
                 end_time_seconds := 50, actions := [] }]) =
      .error "Duration does not match end of last segment" :=
  ⟨rfl, rfl, by decide, rfl⟩

/-! ## Artifact Post-Processor (`generate_custom_meditation`, main.py:48-102).

The draft artifact is the crew result parsed into the `med_crew` models.
`med_crew/models.py` itself is not among the sources; the action/segment
shape below follows its present `my_crew` counterpart and the spec. -/

/-- Modelled from the spec: `med_crew/models.py` (absent from the sources)
defines the draft `Action`; per the spec an Action's `parameters` is a typed
payload whose shape is determined by `actionKind`, and the Post-Processor
backfills it exactly when it is absent or empty.  An absent-or-empty payload
(the source tests `not hasattr(action.parameters, "__dict__") or not
action.parameters.__dict__`) is embedded as `none`; a present, non-empty
typed payload as `some p`.  `action.type` is enum-valued, so the embedded
kind ranges over `AKind`. -/
structure PAction where
  agent : String
  akind : AKind
  start_time_seconds : Int
  duration_seconds : Int
  params : Option Params
  deriving DecidableEq, Repr

structure PSegment where
  title : String
  stype : String
  start_time_seconds : Int
  end_time_seconds : Int
  actions : List PAction
  deriving DecidableEq, Repr

structure PSession where
  title : String
  duration_seconds : Int
  theme : String
  difficulty : String
  background_music : Option String
  segments : List PSegment
  deriving DecidableEq, Repr

/-- One action of the post-processing loop (main.py:70-100): if the action's
parameters are absent or empty, first consult the loop-local
`parameter_cache` under `f"{action_type}_{segment_type}"`, otherwise call
`param_generator._run` (with no content) and record the result in the local
cache; actions with present, non-empty parameters are left untouched. -/
def processAction (lc tc : Cache) (segment_type : String) (a : PAction) :
    Except String (PAction × Cache × Cache) :=
  match a.params with
  | some _ => .ok (a, lc, tc)
  | none =>
    let cache_key := mkKey (akStr a.akind) segment_type
    match findKey lc cache_key with
    | some p => .ok ({ a with params := some p }, lc, tc)
    | none =>
      (runTool tc (akStr a.akind) segment_type none).map
        (fun r => ({ a with params := some r.1 }, (cache_key, r.1) :: lc, r.2))

def processActions : Cache → Cache → String → List PAction →
    Except String (List PAction × Cache × Cache)
  | lc, tc, _, [] => .ok ([], lc, tc)
  | lc, tc, st, a :: rest => do
    let (a', lc₁, tc₁) ← processAction lc tc st a
    let (rest', lc₂, tc₂) ← processActions lc₁ tc₁ st rest
    return (a' :: rest', lc₂, tc₂)

def processSegments : Cache → Cache → List PSegment →
    Except String (List PSegment × Cache × Cache)
  | lc, tc, [] => .ok ([], lc, tc)
  | lc, tc, s :: rest => do
    let (acts', lc₁, tc₁) ← processActions lc tc s.stype s.actions
    let (rest', lc₂, tc₂) ← processSegments lc₁ tc₁ rest
    return ({ s with actions := acts' } :: rest', lc₂, tc₂)

/-- The whole post-processing pass: segments in order, actions in order, with
a fresh (empty) loop-local cache and the generator's class-level cache
threaded through. -/
def postProcess (tc : Cache) (sess : PSession) :
    Except String (PSession × Cache × Cache) :=
  (processSegments [] tc sess.segments).map
    (fun r => ({ sess with segments := r.1 }, r.2))

/-- Frame relation for C3: the action is unchanged except possibly for a
backfill of absent parameters; present parameters survive verbatim. -/
def actPres (a a' : PAction) : Prop :=
  a'.agent = a.agent ∧ a'.akind = a.akind ∧
  a'.start_time_seconds = a.start_time_seconds ∧
  a'.duration_seconds = a.duration_seconds ∧
  ∀ p, a.params = some p → a'.params = some p

def segPres (s s' : PSegment) : Prop :=
  s'.title = s.title ∧ s'.stype = s.stype ∧
  s'.start_time_seconds = s.start_time_seconds ∧
  s'.end_time_seconds = s.end_time_seconds ∧
  List.Forall₂ actPres s.actions s'.actions

theorem processAction_pres {lc tc : Cache} {st : String} {a a' : PAction}
    {lc' tc' : Cache} (h : processAction lc tc st a = .ok (a', lc', tc')) :
    actPres a a' := by
  cases hp : a.params with
  | some p =>
    simp only [processAction, hp] at h
    obtain ⟨rfl, -, -⟩ : a = a' ∧ lc = lc' ∧ tc = tc' := by simpa using h
    exact ⟨rfl, rfl, rfl, rfl, fun q hq => hq⟩
  | none =>
    cases hf : findKey lc (mkKey (akStr a.akind) st) with
    | some p =>
      simp only [processAction, hp, hf] at h
      obtain ⟨rfl, -, -⟩ : { a with params := some p } = a' ∧ lc = lc' ∧ tc = tc' := by
        simpa using h
      exact ⟨rfl, rfl, rfl, rfl, fun q hq => by rw [hp] at hq; cases hq⟩
    | none =>
      cases hrt : runTool tc (akStr a.akind) st none with
      | error e =>
        simp only [processAction, hp, hf, hrt, Except.map] at h
        cases h
      | ok r =>
        simp only [processAction, hp, hf, hrt, Except.map] at h
        obtain ⟨rfl, -, -⟩ :
            { a with params := some r.1 } = a' ∧
              (mkKey (akStr a.akind) st, r.1) :: lc = lc' ∧ r.2 = tc' := by
          simpa using h
        exact ⟨rfl, rfl, rfl, rfl, fun q hq => by rw [hp] at hq; cases hq⟩

theorem processActions_pres {st : String} :
    ∀ (acts : List PAction) (lc tc : Cache) (out : List PAction) (lc' tc' : Cache),
    processActions lc tc st acts = .ok (out, lc', tc') →
    List.Forall₂ actPres acts out := by
  intro acts
  induction acts with
  | nil =>
    intro lc tc out lc' tc' h
    obtain ⟨rfl, -, -⟩ : [] = out ∧ lc = lc' ∧ tc = tc' := by
      simpa [processActions] using h
    exact List.Forall₂.nil
  | cons a rest ih =>
    intro lc tc out lc' tc' h
    rw [processActions] at h
    cases hpa : processAction lc tc st a with
    | error e => rw [hpa] at h; cases h
    | ok trip =>
      obtain ⟨a', lc₁, tc₁⟩ := trip
      rw [hpa] at h
      cases hrec : processActions lc₁ tc₁ st rest with
      | error e => simp [hrec, bind, Except.bind] at h
      | ok trip₂ =>
        obtain ⟨rest', lc₂, tc₂⟩ := trip₂
        simp only [hrec, bind, Except.bind, pure, Except.pure] at h
        obtain ⟨rfl, -, -⟩ : a' :: rest' = out ∧ lc₂ = lc' ∧ tc₂ = tc' := by
          simpa using h
        exact List.Forall₂.cons (processAction_pres hpa) (ih lc₁ tc₁ rest' lc₂ tc₂ hrec)

theorem processSegments_pres :
    ∀ (segs : List PSegment) (lc tc : Cache) (out : List PSegment) (lc' tc' : Cache),
    processSegments lc tc segs = .ok (out, lc', tc') →
    List.Forall₂ segPres segs out := by
  intro segs
  induction segs with
  | nil =>
    intro lc tc out lc' tc' h
    obtain ⟨rfl, -, -⟩ : [] = out ∧ lc = lc' ∧ tc = tc' := by
      simpa [processSegments] using h
    exact List.Forall₂.nil
  | cons s rest ih =>
    intro lc tc out lc' tc' h
    rw [processSegments] at h
    cases hpa : processActions lc tc s.stype s.actions with
    | error e => rw [hpa] at h; cases h
    | ok trip =>
      obtain ⟨acts', lc₁, tc₁⟩ := trip
      rw [hpa] at h
      cases hrec : processSegments lc₁ tc₁ rest with
      | error e => simp [hrec, bind, Except.bind] at h
      | ok trip₂ =>
        obtain ⟨rest', lc₂, tc₂⟩ := trip₂
        simp only [hrec, bind, Except.bind, pure, Except.pure] at h
        obtain ⟨rfl, -, -⟩ : { s with actions := acts' } :: rest' = out ∧
            lc₂ = lc' ∧ tc₂ = tc' := by simpa using h
        exact List.Forall₂.cons
          ⟨rfl, rfl, rfl, rfl, processActions_pres s.actions lc tc acts' lc₁ tc₁ hpa⟩
          (ih lc₁ tc₁ rest' lc₂ tc₂ hrec)

/-- C3: the post-processor is a pure frame over present parameters — every
session field other than the processed segments is unchanged, segment fields
are unchanged, actions keep their agent, kind and timing, and an action whose
draft parameters are present (non-empty) keeps exactly those parameters; only
absent-or-empty parameters are backfilled. -/
theorem C3_postprocessor_preserves_present_params (tc : Cache) (sess : PSession) (out : PSession) (lc' tc' : Cache)
    (h : postProcess tc sess = .ok (out, lc', tc')) :
    out.title = sess.title ∧ out.duration_seconds = sess.duration_seconds ∧
    out.theme = sess.theme ∧ out.difficulty = sess.difficulty ∧
    out.background_music = sess.background_music ∧
    List.Forall₂ segPres sess.segments out.segments := by
  unfold postProcess at h
  cases hps : processSegments [] tc sess.segments with
  | error e => rw [hps] at h; cases h
  | ok r =>
    rw [hps] at h
    obtain ⟨rfl, -⟩ : { sess with segments := r.1 } = out ∧ r.2 = (lc', tc') := by
      simpa [Except.map] using h
    exact ⟨rfl, rfl, rfl, rfl, rfl,
      processSegments_pres sess.segments [] tc r.1 r.2.1 r.2.2 (by rw [hps])⟩

def CacheOK (c : Cache) : Prop :=
  ∀ (a : AKind) (s : String) (p : Params),
    findKey c (mkKey (akStr a) s) = some p → validFor (akStr a) p = true

theorem cacheOK_nil : CacheOK [] := by
  intro a s p h
  simp [findKey] at h

theorem akKeySep : ∀ a b : AKind, a ≠ b →
    ¬ ((akStr a).data ++ ['_'] <+: (akStr b).data ++ ['_']) := by decide

theorem mkKey_eq_akStr {a b : AKind} {s t : String}
    (h : mkKey (akStr a) s = mkKey (akStr b) t) : akStr a = akStr b := by
  by_cases hab : a = b
  · rw [hab]
  · exfalso
    unfold mkKey at h
    have h1 : (akStr a).data ++ ['_'] <+: (akStr a).data ++ '_' :: s.data := by
      have he : (akStr a).data ++ '_' :: s.data = ((akStr a).data ++ ['_']) ++ s.data := by
        simp
      rw [he]
      exact List.prefix_append _ _
    have h2 : (akStr b).data ++ ['_'] <+: (akStr a).data ++ '_' :: s.data := by
      rw [h]
      have he : (akStr b).data ++ '_' :: t.data = ((akStr b).data ++ ['_']) ++ t.data := by
        simp
      rw [he]
      exact List.prefix_append _ _
    have h3 := List.prefix_or_prefix_of_prefix h1 h2
    rcases h3 with hx | hx
    · exact akKeySep a b hab hx
    · exact akKeySep b a (Ne.symm hab) hx

theorem cacheOK_insert {c : Cache} (hc : CacheOK c) {ak : AKind} {s : String} {p : Params}
    (hv : validFor (akStr ak) p = true) :
    CacheOK ((mkKey (akStr ak) s, p) :: c) := by
  intro b t q hfind
  simp only [findKey] at hfind
  split_ifs at hfind with heq
  · obtain rfl : p = q := by simpa using hfind
    rw [← mkKey_eq_akStr heq]
    exact hv
  · exact hc b t q hfind

theorem runTool_rec_valid {tc : Cache} {ak : AKind} {s : String} {p : Params} {tc' : Cache}
    (hok : CacheOK tc) (h : runTool tc (akStr ak) s none = .ok (p, tc')) :
    validFor (akStr ak) p = true ∧ CacheOK tc' := by
  cases hf : findKey tc (mkKey (akStr ak) s) with
  | some q =>
    rw [runTool_hit hf] at h
    obtain ⟨h1, h2⟩ : q = p ∧ tc = tc' := by simpa using h
    subst h1; subst h2
    exact ⟨hok ak s q hf, hok⟩
  | none =>
    by_cases hd : (defaultsHas (akStr ak) && contentFalsy none) = true
    · simp only [runTool, hf, if_pos hd] at h
      obtain ⟨h1, h2⟩ : defaultFor (akStr ak) = p ∧ tc = tc' := by simpa using h
      subst h1; subst h2
      exact ⟨validFor_defaultFor (Bool.and_elim_left hd), hok⟩
    · obtain ⟨q, hq⟩ := runBranch_ok (akStr ak) (resolveVT none s) (resolveBC none s)
      simp only [runTool, hf, if_neg hd, hq, Except.map] at h
      obtain ⟨h1, h2⟩ : q = p ∧ (mkKey (akStr ak) s, q) :: tc = tc' := by simpa using h
      subst h1; subst h2
      exact ⟨runBranch_valid hq, cacheOK_insert hok (runBranch_valid hq)⟩

def actFilled (a a' : PAction) : Prop :=
  a'.params.isSome = true ∧
  (a.params = none → ∃ p, a'.params = some p ∧ validFor (akStr a.akind) p = true)

def segFilled (s s' : PSegment) : Prop :=
  List.Forall₂ actFilled s.actions s'.actions

theorem processAction_filled {lc tc : Cache} {st : String} {a a' : PAction}
    {lc' tc' : Cache} (hl : CacheOK lc) (ht : CacheOK tc)
    (h : processAction lc tc st a = .ok (a', lc', tc')) :
    actFilled a a' ∧ CacheOK lc' ∧ CacheOK tc' := by
  cases hp : a.params with
  | some p =>
    simp only [processAction, hp] at h
    obtain ⟨rfl, rfl, rfl⟩ : a = a' ∧ lc = lc' ∧ tc = tc' := by simpa using h
    exact ⟨⟨by simp [hp], fun hno => by rw [hp] at hno; cases hno⟩, hl, ht⟩
  | none =>
    cases hf : findKey lc (mkKey (akStr a.akind) st) with
    | some p =>
      simp only [processAction, hp, hf] at h
      obtain ⟨rfl, rfl, rfl⟩ : { a with params := some p } = a' ∧ lc = lc' ∧ tc = tc' := by
        simpa using h
      exact ⟨⟨rfl, fun _ => ⟨p, rfl, hl a.akind st p hf⟩⟩, hl, ht⟩
    | none =>
      cases hrt : runTool tc (akStr a.akind) st none with
      | error e =>
        simp only [processAction, hp, hf, hrt, Except.map] at h
        cases h
      | ok r =>
        simp only [processAction, hp, hf, hrt, Except.map] at h
        obtain ⟨rfl, rfl, rfl⟩ :
            { a with params := some r.1 } = a' ∧
              (mkKey (akStr a.akind) st, r.1) :: lc = lc' ∧ r.2 = tc' := by
          simpa using h
        obtain ⟨hv, hok'⟩ := runTool_rec_valid ht (by rw [hrt])
        exact ⟨⟨rfl, fun _ => ⟨r.1, rfl, hv⟩⟩, cacheOK_insert hl hv, hok'⟩

theorem processActions_filled {st : String} :
    ∀ (acts : List PAction) (lc tc : Cache) (out : List PAction) (lc' tc' : Cache),
    CacheOK lc → CacheOK tc →
    processActions lc tc st acts = .ok (out, lc', tc') →
    List.Forall₂ actFilled acts out ∧ CacheOK lc' ∧ CacheOK tc' := by
  intro acts
  induction acts with
  | nil =>
    intro lc tc out lc' tc' hl ht h
    obtain ⟨rfl, rfl, rfl⟩ : [] = out ∧ lc = lc' ∧ tc = tc' := by
      simpa [processActions] using h
    exact ⟨List.Forall₂.nil, hl, ht⟩
  | cons a rest ih =>
    intro lc tc out lc' tc' hl ht h
    rw [processActions] at h
    cases hpa : processAction lc tc st a with
    | error e => rw [hpa] at h; cases h
    | ok trip =>
      obtain ⟨a', lc₁, tc₁⟩ := trip
      rw [hpa] at h
      obtain ⟨hfa, hl₁, ht₁⟩ := processAction_filled hl ht hpa
      cases hrec : processActions lc₁ tc₁ st rest with
      | error e => simp [hrec, bind, Except.bind] at h
      | ok trip₂ =>
        obtain ⟨rest', lc₂, tc₂⟩ := trip₂
        simp only [hrec, bind, Except.bind, pure, Except.pure] at h
        obtain ⟨rfl, rfl, rfl⟩ : a' :: rest' = out ∧ lc₂ = lc' ∧ tc₂ = tc' := by
          simpa using h
        obtain ⟨hfr, hl₂, ht₂⟩ := ih lc₁ tc₁ rest' lc₂ tc₂ hl₁ ht₁ hrec
        exact ⟨List.Forall₂.cons hfa hfr, hl₂, ht₂⟩

theorem processSegments_filled :
    ∀ (segs : List PSegment) (lc tc : Cache) (out : List PSegment) (lc' tc' : Cache),
    CacheOK lc → CacheOK tc →
    processSegments lc tc segs = .ok (out, lc', tc') →
    List.Forall₂ segFilled segs out ∧ CacheOK lc' ∧ CacheOK tc' := by
  intro segs
  induction segs with
  | nil =>
    intro lc tc out lc' tc' hl ht h
    obtain ⟨rfl, rfl, rfl⟩ : [] = out ∧ lc = lc' ∧ tc = tc' := by
      simpa [processSegments] using h
    exact ⟨List.Forall₂.nil, hl, ht⟩
  | cons s rest ih =>
    intro lc tc out lc' tc' hl ht h
    rw [processSegments] at h
    cases hpa : processActions lc tc s.stype s.actions with
    | error e => rw [hpa] at h; cases h
    | ok trip =>
      obtain ⟨acts', lc₁, tc₁⟩ := trip
      rw [hpa] at h
      obtain ⟨hfa, hl₁, ht₁⟩ := processActions_filled s.actions lc tc acts' lc₁ tc₁ hl ht hpa
      cases hrec : processSegments lc₁ tc₁ rest with
      | error e => simp [hrec, bind, Except.bind] at h
      | ok trip₂ =>
        obtain ⟨rest', lc₂, tc₂⟩ := trip₂
        simp only [hrec, bind, Except.bind, pure, Except.pure] at h
        obtain ⟨rfl, rfl, rfl⟩ : { s with actions := acts' } :: rest' = out ∧
            lc₂ = lc' ∧ tc₂ = tc' := by simpa using h
        obtain ⟨hfr, hl₂, ht₂⟩ := ih lc₁ tc₁ rest' lc₂ tc₂ hl₁ ht₁ hrec
        exact ⟨List.Forall₂.cons hfa hfr, hl₂, ht₂⟩

/-- C7 amended: in the post-processed artifact every action has non-empty
parameters, and every action whose draft parameters were absent or empty was
backfilled with parameters structurally valid for its action kind — provided
the generator's class-level cache holds no entry that is invalid for the
recognized kind its key denotes (true in particular of a fresh cache).
Parameters already present in the draft are carried over without any
validation. -/
theorem C7_backfilled_params_nonempty_valid (tc : Cache) (sess : PSession) (out : PSession) (lc' tc' : Cache)
    (hok : CacheOK tc) (h : postProcess tc sess = .ok (out, lc', tc')) :
    List.Forall₂ segFilled sess.segments out.segments := by
  unfold postProcess at h
  cases hps : processSegments [] tc sess.segments with
  | error e => rw [hps] at h; cases h
  | ok r =>
    rw [hps] at h
    obtain ⟨rfl, -⟩ : { sess with segments := r.1 } = out ∧ r.2 = (lc', tc') := by
      simpa [Except.map] using h
    exact (processSegments_filled sess.segments [] tc r.1 r.2.1 r.2.2 cacheOK_nil hok
      (by rw [hps])).1

def c3Sess : PSession :=
  ⟨"w", 60, "x", "beginner", none,
    [⟨"s", "opening", 0, 60,
      [⟨"VoiceAgent", .speak, 0, 5, some (.speak "hi")⟩,
       ⟨"TimerAgent", .pause, 5, 10, none⟩]⟩]⟩

def c3Out : PSession :=
  ⟨"w", 60, "x", "beginner", none,
    [⟨"s", "opening", 0, 60,
      [⟨"VoiceAgent", .speak, 0, 5, some (.speak "hi")⟩,
       ⟨"TimerAgent", .pause, 5, 10, some (.pause (some "Allow for reflection"))⟩]⟩]⟩

/-- Witness for C3 at a concrete input: a two-action segment where the speak
action already carries parameters; after post-processing the speak action is
untouched and only the empty pause action was backfilled. -/
theorem C3_witness :
    c3Out.title = c3Sess.title ∧ c3Out.duration_seconds = c3Sess.duration_seconds ∧
    c3Out.theme = c3Sess.theme ∧ c3Out.difficulty = c3Sess.difficulty ∧
    c3Out.background_music = c3Sess.background_music ∧
    List.Forall₂ segPres c3Sess.segments c3Out.segments :=
  C3_postprocessor_preserves_present_params [] c3Sess c3Out
    [(mkKey "pause" "opening", .pause (some "Allow for reflection"))] [] rfl

/-- Counterexample to C7 as stated: the post-processor never validates
parameters that are already present.  A draft whose speak action carries a
non-empty `PauseParameters` payload passes through unchanged, and that
payload is not structurally valid for `speak`. -/
theorem C7_present_params_not_validated_cex :
    postProcess []
        (⟨"t", 10, "x", "b", none,
          [⟨"s", "opening", 0, 10,
            [⟨"VoiceAgent", .speak, 0, 5, some (.pause (some "oops"))⟩]⟩]⟩ : PSession) =
      .ok (⟨"t", 10, "x", "b", none,
            [⟨"s", "opening", 0, 10,
              [⟨"VoiceAgent", .speak, 0, 5, some (.pause (some "oops"))⟩]⟩]⟩, [], []) ∧
    validFor (akStr AKind.speak) (.pause (some "oops")) = false :=
  ⟨rfl, rfl⟩

def c7Sess : PSession :=
  ⟨"v", 30, "y", "beginner", none,
    [⟨"g", "guidance", 0, 30,
      [⟨"BreathAgent", .inhale_cue, 0, 4, none⟩]⟩]⟩

def c7Out : PSession :=
  ⟨"v", 30, "y", "beginner", none,
    [⟨"g", "guidance", 0, 30,
      [⟨"BreathAgent", .inhale_cue, 0, 4,
        some (.breathCue "inhale" none (some "Breathe in with awareness"))⟩]⟩]⟩

/-- Witness for C7 at a concrete input: an empty-parameter inhale cue in a
guidance segment is backfilled with a breath-cue payload valid for its
kind. -/
theorem C7_witness :
    List.Forall₂ segFilled c7Sess.segments c7Out.segments :=
  C7_backfilled_params_nonempty_valid [] c7Sess c7Out
    [(mkKey "inhale_cue" "guidance",
      .breathCue "inhale" none (some "Breathe in with awareness"))]
    [(mkKey "inhale_cue" "guidance",
      .breathCue "inhale" none (some "Breathe in with awareness"))]
    cacheOK_nil rfl
